import Mathlib

/-!
Shallow embedding of `src/main.rs` of the cyber-christmas-card program:
the cell-content model, the two shipped layers (`SnowFrame`,
`ChristmasTreeFrame`), the string-to-cells conversion, and the row
compositor of `Printer::print`.

Conventions:
* `usize` values are natural numbers; where Rust arithmetic can overflow,
  release-mode wrapping semantics are modelled explicitly modulo `2 ^ 64`
  (`wadd`, `wsub`).  Operations that panic in both Rust profiles
  (out-of-bounds indexing, `% 0`) are modelled by `Option`, `none` being
  a panic.
* `ThreadRng` is modelled as a stream of pre-drawn raw values consumed in
  order; `gen_range(lo..=hi)` reduces the next raw value into the range.
-/

namespace CyberChristmasCard

/-- The `usize` modulus: values wrap modulo `2 ^ 64`. -/
def WORD : Nat := 2 ^ 64

/-- Wrapping `usize` addition. -/
def wadd (a b : Nat) : Nat := (a + b) % WORD

/-- Wrapping `usize` subtraction (release-mode semantics of `a - b`). -/
def wsub (a b : Nat) : Nat := (a + WORD - b % WORD) % WORD

/-- Rust `colored::Color`, restricted to the constructors the program uses. -/
inductive Color where
  | red
  | green
  | yellow
  | blue
  | magenta
  | cyan
  | white
  | trueColor (r g b : Nat)
deriving DecidableEq

/-- The `BROWN` constant of `main.rs`. -/
def BROWN : Color := Color.trueColor 139 69 19

/-- Display width of one character: 1 for ASCII (`c as u32 <= 0x7F`),
2 otherwise, as in `impl StringWidth for String`. -/
def charWidth (c : Char) : Nat := if c.toNat < 128 then 1 else 2

/-- Embedding of `StringWidth::width` for `String`: the sum of the characters' widths. -/
def stringWidth (s : String) : Nat := (s.data.map charWidth).sum

/-- Rust `colored::ColoredString`: the input text plus its styling.  Only the
input text and the foreground color are observable in this program. -/
structure ColoredString where
  input : String
  fgColor : Color
deriving DecidableEq

/-- Embedding of `StringWidth::width` for `ColoredString`: the width of its input. -/
def ColoredString.width (s : ColoredString) : Nat := stringWidth s.input

/-- The `Content` enum: `Transparent`, `ColoredString { s }`, `Compensate`
(the spec's `Continuation`). -/
inductive Content where
  | transparent
  | coloredString (s : ColoredString)
  | compensate
deriving DecidableEq

/-- Model of `ThreadRng`: a finite stream of pre-drawn raw values
(an arbitrary prefix of the thread-local generator's output), consumed
one value per `gen_range` call; an exhausted stream keeps yielding `0`. -/
structure Rng where
  vals : List Nat
deriving DecidableEq

/-- Embedding of `gen_range(lo..=hi)`: the next raw value reduced into `[lo, hi]`,
together with the advanced generator. -/
def Rng.genRange (r : Rng) (lo hi : Nat) : Nat × Rng :=
  (lo + r.vals.headD 0 % (hi + 1 - lo), ⟨r.vals.tail⟩)

/-! ## `SnowFrame` -/

/-- The `SnowFrame` struct.  Each `BitSet` of `snows_row` is modelled as
the finite set of its members.  The thread-local RNG state behind the
`thread_rng` handle is reified into the structure. -/
structure SnowFrame where
  thread_rng : Rng
  frame_width : Nat
  frame_height : Nat
  cursor : Nat
  snows_row : List (Finset Nat)
deriving DecidableEq

/-- Embedding of `SnowFrame::default()`. -/
def SnowFrame.default (rng : Rng) : SnowFrame :=
  { thread_rng := rng, frame_width := 0, frame_height := 0, cursor := 0
    snows_row := [] }

/-- The column-marking loop of `SnowFrame::update`: starting from the
cleared row, for `i in 0..width` draw `gen_range(0..=20)` and insert `i`
when the draw is `0`. -/
def snowFill (rng : Rng) (width : Nat) : Finset Nat × Rng :=
  (List.range width).foldl
    (fun acc i =>
      let (v, rng') := acc.2.genRange 0 20
      (if v = 0 then insert i acc.1 else acc.1, rng'))
    (∅, rng)

/-- Embedding of `SnowFrame::update`.  Here `none` models a panic: `% 0` when the height is
`0` on the unchanged-dimensions path (with `cursor = 0` the debug build
already panics on the underflow of `cursor + 0 - 1`), and the
out-of-bounds indexing of `snows_row[cursor]`. -/
def SnowFrame.update (s : SnowFrame) (screen_width screen_height : Nat) :
    Option SnowFrame :=
  let s1? : Option SnowFrame :=
    if s.frame_width ≠ screen_width ∨ s.frame_height ≠ screen_height then
      some { s with frame_width := screen_width, frame_height := screen_height,
                    cursor := 0,
                    snows_row := List.replicate screen_height ∅ }
    else if screen_height = 0 then none
    else some { s with cursor := (s.cursor + screen_height - 1) % screen_height }
  match s1? with
  | none => none
  | some s1 =>
    if s1.cursor < s1.snows_row.length then
      let (row, rng') := snowFill s1.thread_rng s1.frame_width
      some { s1 with snows_row := s1.snows_row.set s1.cursor row,
                     thread_rng := rng' }
    else none

/-- Embedding of `SnowFrame::get_content`.  Here `none` models a panic: `% 0` when the
stored height is `0`, or an out-of-bounds `snows_row[y]`.  The method
mutates nothing, so the state is returned unchanged. -/
def SnowFrame.get_content (s : SnowFrame) (x y : Nat) :
    Option (Content × SnowFrame) :=
  if s.frame_height = 0 then none
  else
    match s.snows_row.get? ((s.cursor + y) % s.frame_height) with
    | none => none
    | some row =>
      if x ∈ row then
        some (Content.coloredString ⟨"o", Color.white⟩, s)
      else
        some (Content.transparent, s)

/-! ## `ChristmasTreeFrame` -/

/-- The `ChristmasTreeFrame` struct, with the RNG state reified. -/
structure ChristmasTreeFrame where
  thread_rng : Rng
  frame_width : Nat
  frame_height : Nat
deriving DecidableEq

/-- Embedding of `ChristmasTreeFrame::get_leaf_color`. -/
def ChristmasTreeFrame.get_leaf_color (s : ChristmasTreeFrame) :
    Color × ChristmasTreeFrame :=
  let (v, rng') := s.thread_rng.genRange 0 5
  (match v with
   | 0 => Color.red
   | 1 => Color.green
   | 2 => Color.yellow
   | 3 => Color.blue
   | 4 => Color.magenta
   | 5 => Color.cyan
   | _ => Color.white,
   { s with thread_rng := rng' })

/-- Embedding of `ChristmasTreeFrame::get_leaf`. -/
def ChristmasTreeFrame.get_leaf (s : ChristmasTreeFrame) :
    ColoredString × ChristmasTreeFrame :=
  let (v, rng') := s.thread_rng.genRange 0 10
  let s' := { s with thread_rng := rng' }
  match v with
  | 0 =>
    let (c, s'') := s'.get_leaf_color
    (⟨"o", c⟩, s'')
  | _ => (⟨"*", Color.green⟩, s')

/-- Embedding of `ChristmasTreeFrame::default()`. -/
def ChristmasTreeFrame.default (rng : Rng) : ChristmasTreeFrame :=
  { thread_rng := rng, frame_width := 0, frame_height := 0 }

/-- Embedding of `ChristmasTreeFrame::update`. -/
def ChristmasTreeFrame.update (s : ChristmasTreeFrame)
    (screen_width screen_height : Nat) : ChristmasTreeFrame :=
  if s.frame_width ≠ screen_width ∨ s.frame_height ≠ screen_height then
    { s with frame_width := screen_width, frame_height := screen_height }
  else s

/-- Embedding of `string_to_content_vec`: for each character, push a one-character
colored glyph, followed by a `Compensate` when the character is
non-ASCII. -/
def string_to_content_vec (s : String) (color : Color) : List Content :=
  s.data.flatMap (fun c =>
    Content.coloredString ⟨String.mk [c], color⟩ ::
      if c.toNat < 128 then [] else [Content.compensate])

/-- Embedding of `ChristmasTreeFrame::get_content`.  The `usize` subtractions that can
underflow are modelled with release-mode wrapping (`wsub`); subtractions
guarded to be in range use plain `Nat` subtraction.  `none` models a
vector-index panic (`trunk_vec[..]`, `blessing_vec[..]`).  The state is
returned alongside because `get_leaf` advances the RNG. -/
def ChristmasTreeFrame.get_content (s : ChristmasTreeFrame) (x y : Nat) :
    Option (Content × ChristmasTreeFrame) :=
  -- const HEIGHT: usize = 14; tree shows on the middle 14 rows
  let y_offset := wsub s.frame_height 14 / 2
  if y < y_offset ∨ y ≥ y_offset + 14 then
    some (Content.transparent, s)
  else
    -- leaf part, LEAF_HEIGHT = 10
    if y - y_offset < 10 then
      let leaf_width := 2 * (y - y_offset) + 1
      let leaf_offset := wsub s.frame_width leaf_width / 2
      if x < leaf_offset ∨ x ≥ leaf_offset + leaf_width then
        some (Content.transparent, s)
      else
        let (leaf, s') := s.get_leaf
        some (Content.coloredString leaf, s')
    else
      -- trunk part, TRUNK_HEIGHT = 2
      if y - y_offset - 10 < 2 then
        let trunk_vec := string_to_content_vec "mWm" BROWN
        let trunk_offset := wsub s.frame_width 3 / 2
        if x < trunk_offset ∨ x ≥ trunk_offset + 3 then
          some (Content.transparent, s)
        else
          match trunk_vec.get? (x - trunk_offset) with
          | some c => some (c, s)
          | none => none
      else
        -- blank part, BLANK_HEIGHT = 1
        if y - y_offset - 10 - 2 < 1 then
          some (Content.transparent, s)
        else
          -- blessing part, BLESSING_HEIGHT = 1
          if y - y_offset - 10 - 2 - 1 < 1 then
            let blessing := "2024 聖誕快樂"
            let blessing_vec := string_to_content_vec blessing Color.red
            let blessing_width := stringWidth blessing
            let blessing_offset := wsub s.frame_width blessing_width / 2
            if x < blessing_offset ∨ x ≥ blessing_offset + blessing_width then
              some (Content.transparent, s)
            else
              match blessing_vec.get? (x - blessing_offset) with
              | some c => some (c, s)
              | none => none
          else
            some (Content.transparent, s)

/-! ## The compositor of `Printer::print`, over abstract layers

For the compositing claims a layer is abstracted to the function of
reported contents `(x, y) ↦ get_content(x, y)`; the scan of one row of
`Printer::print` is embedded over a stack of such report functions. -/

/-- A layer as seen by the compositor: its per-cell report. -/
def Layer : Type := Nat → Nat → Content

/-- The predicate of the `find` in `Printer::print`: `Transparent` and
`Compensate` are skipped, everything else is taken. -/
def isOpaque : Content → Bool
  | Content.transparent => false
  | Content.compensate => false
  | Content.coloredString _ => true

/-- The per-cell resolution of `Printer::print`: query each layer in
stack order and take the first result that is neither `Transparent` nor
`Compensate`. -/
def findContent (ls : List Layer) (x y : Nat) : Option Content :=
  (ls.map (fun f => f x y)).find? isOpaque

/-- One emitted unit of a rendered row: the blank pushed by the
catch-all arm, or the styled text of a resolved glyph. -/
inductive Item where
  | blank
  | glyph (s : ColoredString)
deriving DecidableEq

/-- Display width of an emitted item. -/
def Item.width : Item → Nat
  | Item.blank => 1
  | Item.glyph s => s.width

/-- The row scan of `Printer::print`, emitting each item tagged with the
scan position `x` that produced it: while `x < width`, resolve the cell;
a glyph advances `x` by `x += s.width() - 1; x += 1` (with `usize`
wrapping), anything else emits one blank and advances by one.  `fuel`
bounds the iteration count; `width` steps suffice whenever every
resolved glyph has positive width, since `x` then strictly increases. -/
def renderRowAux (ls : List Layer) (y width : Nat) :
    Nat → Nat → List (Nat × Item)
  | 0, _ => []
  | fuel + 1, x =>
    if x < width then
      match findContent ls x y with
      | some (Content.coloredString s) =>
        (x, Item.glyph s) ::
          renderRowAux ls y width fuel (wadd (wadd x (wsub s.width 1)) 1)
      | _ =>
        (x, Item.blank) :: renderRowAux ls y width fuel (x + 1)
    else []

/-- One full row of `Printer::print`, scanned from `x = 0`. -/
def renderRow (ls : List Layer) (y width : Nat) : List (Nat × Item) :=
  renderRowAux ls y width width 0

/-- Total display width of a rendered row. -/
def rowDisplayWidth (row : List (Nat × Item)) : Nat :=
  (row.map (fun p => p.2.width)).sum

/-- The rendered cell at display column `x`: the emitted item whose span
covers `x` (an item emitted at scan position `p` covers columns
`[p, p + width)`). -/
def renderedCellAt (row : List (Nat × Item)) (x : Nat) : Option Item :=
  (row.find? (fun p => decide (p.1 ≤ x) && decide (x < p.1 + p.2.width))).map
    Prod.snd

/-! ## The stateful `Printer::print` over the shipped frames

`main` registers `vec![christmas_tree_frame, snow_frame]`; the frame
stack is a list of the two shipped frame variants, and `print` threads
their states through every `get_content` call (the `find` is lazy:
layers behind the first opaque result are not queried). -/

/-- One element of `Printer::frames`. -/
inductive FrameS where
  | snow (s : SnowFrame)
  | tree (t : ChristmasTreeFrame)
deriving DecidableEq

/-- Dispatch of `Frame::update` over the shipped variants. -/
def FrameS.update : FrameS → Nat → Nat → Option FrameS
  | FrameS.snow s, w, h => (s.update w h).map FrameS.snow
  | FrameS.tree t, w, h => some (FrameS.tree (t.update w h))

/-- Dispatch of `Frame::get_content` over the shipped variants. -/
def FrameS.get_content : FrameS → Nat → Nat → Option (Content × FrameS)
  | FrameS.snow s, x, y => (s.get_content x y).map (fun p => (p.1, FrameS.snow p.2))
  | FrameS.tree t, x, y => (t.get_content x y).map (fun p => (p.1, FrameS.tree p.2))

/-- The lazy `find` of `Printer::print` over the mutable frame stack:
frames are queried in order until the first result that is neither
`Transparent` nor `Compensate`; later frames are left unqueried.  The
outer `Option` propagates a panic of some `get_content`. -/
def findContentS : List FrameS → Nat → Nat → Option (Option ColoredString × List FrameS)
  | [], _, _ => some (none, [])
  | f :: rest, x, y =>
    match f.get_content x y with
    | none => none
    | some (Content.coloredString s, f') => some (some s, f' :: rest)
    | some (_, f') =>
      match findContentS rest x y with
      | none => none
      | some (r, rest') => some (r, f' :: rest')

/-- The row scan of `Printer::print` with frame states threaded through;
same control flow as `renderRowAux`. -/
def printRowAux (width y : Nat) :
    Nat → Nat → List FrameS → Option (List Item × List FrameS)
  | 0, _, fs => some ([], fs)
  | fuel + 1, x, fs =>
    if x < width then
      match findContentS fs x y with
      | none => none
      | some (some s, fs') =>
        match printRowAux width y fuel (wadd (wadd x (wsub s.width 1)) 1) fs' with
        | none => none
        | some (items, fs'') => some (Item.glyph s :: items, fs'')
      | some (none, fs') =>
        match printRowAux width y fuel (x + 1) fs' with
        | none => none
        | some (items, fs'') => some (Item.blank :: items, fs'')
    else some ([], fs)

/-- The rows `y ∈ ys` of `Printer::print`, threading frame states row by
row. -/
def printRowsAux (width : Nat) :
    List Nat → List FrameS → Option (List (List Item) × List FrameS)
  | [], fs => some ([], fs)
  | y :: ys, fs =>
    match printRowAux width y width 0 fs with
    | none => none
    | some (row, fs') =>
      match printRowsAux width ys fs' with
      | none => none
      | some (rows, fs'') => some (row :: rows, fs'')

/-- Embedding of `Printer::print`: all rows `0 ≤ y < screen_height`, each scanned over
`0 ≤ x < screen_width`. -/
def Printer.print (screen_width screen_height : Nat) (fs : List FrameS) :
    Option (List (List Item) × List FrameS) :=
  printRowsAux screen_width (List.range screen_height) fs

/-! ## Auxiliary specification predicates -/

/-- The continuation invariant of a content sequence: a `Compensate`
entry appears always and only immediately after a width-2 glyph entry,
exactly one per extra column that glyph consumes. -/
def contSeqOk : List Content → Bool
  | [] => true
  | Content.transparent :: rest => contSeqOk rest
  | Content.compensate :: _ => false
  | Content.coloredString s :: Content.compensate :: rest =>
    decide (ColoredString.width s = 2) && contSeqOk rest
  | Content.coloredString s :: rest =>
    decide (ColoredString.width s ≠ 2) && contSeqOk rest

/-- Equality of `SnowFrame`s up to the reified RNG state (the
`thread_rng` field of the Rust struct is an unchanging handle to the
thread-local generator). -/
def SnowFrame.eqUpToRng (a b : SnowFrame) : Prop :=
  a.frame_width = b.frame_width ∧ a.frame_height = b.frame_height ∧
    a.cursor = b.cursor ∧ a.snows_row = b.snows_row

/-- Equality of `ChristmasTreeFrame`s up to the reified RNG state. -/
def ChristmasTreeFrame.eqUpToRng (a b : ChristmasTreeFrame) : Prop :=
  a.frame_width = b.frame_width ∧ a.frame_height = b.frame_height

/-- Equality of frames up to the reified RNG state. -/
def FrameS.eqUpToRng : FrameS → FrameS → Prop
  | FrameS.snow a, FrameS.snow b => a.eqUpToRng b
  | FrameS.tree a, FrameS.tree b => a.eqUpToRng b
  | _, _ => False

/-! ## Arithmetic helpers -/

theorem wadd_eq_of_lt {a b : Nat} (h : a + b < WORD) : wadd a b = a + b :=
  Nat.mod_eq_of_lt h

theorem wsub_eq_of_le {a b : Nat} (hba : b ≤ a) (ha : a < WORD) : wsub a b = a - b := by
  have hb : b < WORD := lt_of_le_of_lt hba ha
  unfold wsub
  rw [Nat.mod_eq_of_lt hb]
  have h1 : a + WORD - b = (a - b) + WORD := by omega
  rw [h1, Nat.add_mod_right, Nat.mod_eq_of_lt (by omega)]

/-- The scan advance `x += s.width() - 1; x += 1` equals `x + s.width()`
for a glyph of positive width that fits in the row. -/
theorem advance_eq {x w width : Nat} (hw : 1 ≤ w) (hfit : x + w ≤ width)
    (hW : width < WORD) : wadd (wadd x (wsub w 1)) 1 = x + w := by
  have hwW : w < WORD := lt_of_le_of_lt (by omega) hW
  rw [wsub_eq_of_le hw hwW,
    wadd_eq_of_lt (lt_of_le_of_lt (by omega : x + (w - 1) ≤ width) hW),
    wadd_eq_of_lt (lt_of_le_of_lt (by omega : x + (w - 1) + 1 ≤ width) hW)]
  omega

/-! ## Per-cell resolution lemmas -/

theorem findContent_nil (x y : Nat) : findContent [] x y = none := rfl

theorem findContent_cons (f : Layer) (ls : List Layer) (x y : Nat) :
    findContent (f :: ls) x y =
      if isOpaque (f x y) then some (f x y) else findContent ls x y := by
  cases h : isOpaque (f x y) <;> simp [findContent, List.find?_cons, h]

theorem findContent_first_hit {ls : List Layer} {x y : Nat} {c : Content}
    (h : findContent ls x y = some c) : isOpaque c = true :=
  List.find?_some h

theorem isOpaque_iff {c : Content} :
    isOpaque c = true ↔ ∃ s, c = Content.coloredString s := by
  cases c <;> simp [isOpaque]

/-- The per-cell resolution is `none` or an opaque glyph. -/
theorem findContent_cases (ls : List Layer) (x y : Nat) :
    findContent ls x y = none ∨
      ∃ s, findContent ls x y = some (Content.coloredString s) := by
  cases h : findContent ls x y with
  | none => exact Or.inl rfl
  | some c =>
    rcases isOpaque_iff.mp (findContent_first_hit h) with ⟨s, rfl⟩
    exact Or.inr ⟨s, rfl⟩

/-- If every layer reports `Transparent` or `Compensate` at a cell, the
resolution there is `none`. -/
theorem findContent_eq_none_of_all {ls : List Layer} {x y : Nat}
    (h : ∀ f ∈ ls, f x y = Content.transparent ∨ f x y = Content.compensate) :
    findContent ls x y = none := by
  unfold findContent
  rw [List.find?_eq_none]
  intro c hc
  rcases List.mem_map.mp hc with ⟨f, hf, rfl⟩
  rcases h f hf with h' | h' <;> simp [h', isOpaque]

/-! ## Row-scan lemmas -/

theorem renderRowAux_stop (ls : List Layer) (y width fuel x : Nat)
    (hx : ¬ x < width) : renderRowAux ls y width fuel x = [] := by
  cases fuel <;> simp [renderRowAux, hx]

theorem renderRowAux_glyph {ls : List Layer} {y width x : Nat} (fuel : Nat)
    {s : ColoredString} (hx : x < width)
    (h : findContent ls x y = some (Content.coloredString s)) :
    renderRowAux ls y width (fuel + 1) x =
      (x, Item.glyph s) ::
        renderRowAux ls y width fuel (wadd (wadd x (wsub s.width 1)) 1) := by
  simp [renderRowAux, hx, h]

theorem renderRowAux_blank {ls : List Layer} {y width x : Nat} (fuel : Nat)
    (hx : x < width) (h : findContent ls x y = none) :
    renderRowAux ls y width (fuel + 1) x =
      (x, Item.blank) :: renderRowAux ls y width fuel (x + 1) := by
  simp [renderRowAux, hx, h]

/-- The item emitted for scan position `x` is fully determined by the
per-cell resolution at `(x, y)`. -/
theorem renderRowAux_mem_item {ls : List Layer} {y width : Nat} :
    ∀ {fuel x0 x : Nat} {it : Item}, (x, it) ∈ renderRowAux ls y width fuel x0 →
      it = match findContent ls x y with
           | some (Content.coloredString s) => Item.glyph s
           | _ => Item.blank := by
  intro fuel
  induction fuel with
  | zero => intro x0 x it h; simp [renderRowAux] at h
  | succ n ih =>
    intro x0 x it h
    by_cases hx : x0 < width
    · rcases findContent_cases ls x0 y with h0 | ⟨s, h0⟩
      · rw [renderRowAux_blank n hx h0] at h
        rcases List.mem_cons.mp h with h' | h'
        · obtain ⟨h1, h2⟩ := Prod.mk.injEq .. ▸ h'
          subst h1; subst h2
          rw [h0]
        · exact ih h'
      · rw [renderRowAux_glyph n hx h0] at h
        rcases List.mem_cons.mp h with h' | h'
        · obtain ⟨h1, h2⟩ := Prod.mk.injEq .. ▸ h'
          subst h1; subst h2
          rw [h0]
        · exact ih h'
    · rw [renderRowAux_stop _ _ _ _ _ hx] at h
      simp at h

theorem exists_item_of_fst_mem {l : List (Nat × Item)} {x : Nat}
    (h : x ∈ l.map Prod.fst) : ∃ it, (x, it) ∈ l := by
  rcases List.mem_map.mp h with ⟨p, hp, rfl⟩
  exact ⟨p.2, by simpa using hp⟩

theorem rowDisplayWidth_nil : rowDisplayWidth [] = 0 := rfl

theorem rowDisplayWidth_cons (p : Nat × Item) (l : List (Nat × Item)) :
    rowDisplayWidth (p :: l) = p.2.width + rowDisplayWidth l := by
  simp [rowDisplayWidth]

/-- Width accounting for the row scan: when every glyph resolved inside
the row has positive width and fits within `width`, the scan from `x`
emits exactly `width - x` display columns. -/
theorem renderRowAux_displayWidth {ls : List Layer} {y width : Nat}
    (hW : width < WORD)
    (hfit : ∀ x s, x < width → findContent ls x y = some (Content.coloredString s) →
      1 ≤ s.width ∧ x + s.width ≤ width) :
    ∀ fuel x, x ≤ width → width - x ≤ fuel →
      rowDisplayWidth (renderRowAux ls y width fuel x) = width - x := by
  intro fuel
  induction fuel with
  | zero =>
    intro x hx hfuel
    have hxw : ¬ x < width := by omega
    rw [renderRowAux_stop _ _ _ _ _ hxw]
    simp [rowDisplayWidth]
    omega
  | succ n ih =>
    intro x hx hfuel
    by_cases hlt : x < width
    · rcases findContent_cases ls x y with h0 | ⟨s, h0⟩
      · rw [renderRowAux_blank n hlt h0, rowDisplayWidth_cons]
        have hrec := ih (x + 1) (by omega) (by omega)
        rw [hrec]
        simp only [Item.width]
        omega
      · obtain ⟨hw1, hwfit⟩ := hfit x s hlt h0
        rw [renderRowAux_glyph n hlt h0, advance_eq hw1 hwfit hW,
          rowDisplayWidth_cons]
        have hrec := ih (x + s.width) (by omega) (by omega)
        rw [hrec]
        simp only [Item.width]
        omega
    · rw [renderRowAux_stop _ _ _ _ _ hlt]
      simp [rowDisplayWidth]
      omega

/-! ## Claim C1 -/

/-- C1 (counterexample): the claim "for every in-range coordinate at
which the front layer reports a `Glyph`, the rendered cell at that
coordinate equals that glyph" fails as stated: on a 2-column row whose
front layer reports the glyph `X` at column 1 and whose back layer
reports the width-2 glyph `中` at column 0, the scan emits `中` at
column 0 and advances past column 1, so the cell displayed at column 1
is the continuation half of `中`, not `X`. -/
theorem front_glyph_claim_counterexample :
    ((fun x _ => if x = 1 then Content.coloredString ⟨"X", Color.white⟩
        else Content.transparent) : Layer) 1 0 =
      Content.coloredString ⟨"X", Color.white⟩ ∧
    1 < 2 ∧
    renderedCellAt
        (renderRow
          [fun x _ => if x = 1 then Content.coloredString ⟨"X", Color.white⟩
            else Content.transparent,
           fun x _ => if x = 0 then Content.coloredString ⟨"中", Color.white⟩
            else Content.transparent]
          0 2) 1 =
      some (Item.glyph ⟨"中", Color.white⟩) ∧
    renderedCellAt
        (renderRow
          [fun x _ => if x = 1 then Content.coloredString ⟨"X", Color.white⟩
            else Content.transparent,
           fun x _ => if x = 0 then Content.coloredString ⟨"中", Color.white⟩
            else Content.transparent]
          0 2) 1 ≠
      some (Item.glyph ⟨"X", Color.white⟩) := by
  refine ⟨rfl, by omega, ?_, ?_⟩ <;> decide

/-- C1 (amended): at every coordinate the scan queries directly (a scan
position of the row), if the front layer reports a glyph `g` there, the
item emitted for that position is exactly `g`, regardless of every back
layer: the stack is resolved front-first and `g` is the first opaque
result. -/
theorem front_glyph_wins_at_scanned_column (f : Layer) (ls : List Layer)
    (y width x : Nat) (g : ColoredString)
    (hx : x ∈ (renderRow (f :: ls) y width).map Prod.fst)
    (hf : f x y = Content.coloredString g) :
    (x, Item.glyph g) ∈ renderRow (f :: ls) y width ∧
      ∀ it, (x, it) ∈ renderRow (f :: ls) y width → it = Item.glyph g := by
  have hfc : findContent (f :: ls) x y = some (Content.coloredString g) := by
    rw [findContent_cons, hf]
    simp [isOpaque]
  have hdet : ∀ it, (x, it) ∈ renderRow (f :: ls) y width → it = Item.glyph g := by
    intro it hit
    unfold renderRow at hit
    have h := renderRowAux_mem_item hit
    rw [hfc] at h
    exact h
  rcases exists_item_of_fst_mem hx with ⟨it, hit⟩
  exact ⟨hdet it hit ▸ hit, hdet⟩

/-- C1 (witness): instantiation of the amended theorem on a one-column
grid whose front layer reports `X` at the origin. -/
theorem front_glyph_wins_witness :
    (0 ∈ (renderRow [fun _ _ => Content.coloredString ⟨"X", Color.white⟩]
        0 1).map Prod.fst) ∧
    ((0, Item.glyph ⟨"X", Color.white⟩) ∈
        renderRow [fun _ _ => Content.coloredString ⟨"X", Color.white⟩] 0 1 ∧
      ∀ it, (0, it) ∈
          renderRow [fun _ _ => Content.coloredString ⟨"X", Color.white⟩] 0 1 →
        it = Item.glyph ⟨"X", Color.white⟩) :=
  ⟨by decide,
    front_glyph_wins_at_scanned_column
      (fun _ _ => Content.coloredString ⟨"X", Color.white⟩) [] 0 1 0
      ⟨"X", Color.white⟩ (by decide) rfl⟩

/-! ## Claim C2 -/

/-- C2 (counterexample): the claim quantifies over every `c` with
`0 ≤ c < width`, but for a width-2 glyph starting in the last column the
scan emits the whole glyph and the row overflows: with `width = 1` and
`c = 0` the rendered row has display width `2`, not `1`. -/
theorem wide_glyph_row_width_counterexample :
    (0 : Nat) < 1 ∧
    ColoredString.width ⟨"中", Color.white⟩ = 2 ∧
    rowDisplayWidth
        (renderRow
          [fun x _ => if x = 0 then Content.coloredString ⟨"中", Color.white⟩
            else Content.transparent] 0 1) = 2 ∧
    rowDisplayWidth
        (renderRow
          [fun x _ => if x = 0 then Content.coloredString ⟨"中", Color.white⟩
            else Content.transparent] 0 1) ≠ 1 := by
  refine ⟨by omega, by decide, by decide, by decide⟩

/-- C2 (amended): for a row whose single layer reports one width-2 glyph
at column `c` and `Transparent` elsewhere, if the glyph fits in the row
(`c + 2 ≤ width`), the rendered row's total display width equals
`width`: the glyph's two columns are counted once and no extra blank is
emitted for the consumed column. -/
theorem single_wide_glyph_row_width (width c y : Nat) (g : ColoredString)
    (hg : g.width = 2) (hc : c + 2 ≤ width) (hW : width < WORD) :
    rowDisplayWidth
        (renderRow
          [fun x _ => if x = c then Content.coloredString g
            else Content.transparent] y width) = width := by
  have hfc : ∀ x' : Nat,
      findContent
          [(fun x _ => if x = c then Content.coloredString g
            else Content.transparent : Layer)] x' y =
        if x' = c then some (Content.coloredString g) else none := by
    intro x'
    by_cases hx' : x' = c <;>
      simp [findContent_cons, findContent_nil, isOpaque, hx']
  have hfit : ∀ x' s, x' < width →
      findContent
          [(fun x _ => if x = c then Content.coloredString g
            else Content.transparent : Layer)] x' y =
        some (Content.coloredString s) →
      1 ≤ s.width ∧ x' + s.width ≤ width := by
    intro x' s _ hs
    rw [hfc x'] at hs
    by_cases hx' : x' = c
    · rw [if_pos hx'] at hs
      obtain rfl : g = s := by injection hs with h1; injection h1
      subst hx'
      omega
    · rw [if_neg hx'] at hs
      exact absurd hs (by simp)
  have h := renderRowAux_displayWidth hW hfit width 0 (by omega) (by omega)
  simpa [renderRow] using h

/-- C2 (witness): instantiation of the amended theorem at `width = 5`,
`c = 1`, glyph `中`. -/
theorem single_wide_glyph_row_width_witness :
    ColoredString.width ⟨"中", Color.white⟩ = 2 ∧ 1 + 2 ≤ 5 ∧ 5 < WORD ∧
    rowDisplayWidth
        (renderRow
          [fun x _ => if x = 1 then Content.coloredString ⟨"中", Color.white⟩
            else Content.transparent] 0 5) = 5 :=
  ⟨by decide, by omega, by decide,
    single_wide_glyph_row_width 5 1 0 ⟨"中", Color.white⟩ (by decide) (by omega)
      (by decide)⟩

/-! ## Claim C3 -/

/-- C3 (counterexample): the claim "wherever all layers report
`Transparent` the rendered cell is a single blank" fails as stated: on a
2-column row whose only layer reports the width-2 glyph `中` at column 0
and `Transparent` at column 1, the cell displayed at column 1 is the
continuation half of `中`, not a blank, and the scan never queries
column 1. -/
theorem all_transparent_claim_counterexample :
    ((fun x _ => if x = 0 then Content.coloredString ⟨"中", Color.white⟩
        else Content.transparent) : Layer) 1 0 = Content.transparent ∧
    1 < 2 ∧
    renderedCellAt
        (renderRow
          [fun x _ => if x = 0 then Content.coloredString ⟨"中", Color.white⟩
            else Content.transparent] 0 2) 1 =
      some (Item.glyph ⟨"中", Color.white⟩) ∧
    renderedCellAt
        (renderRow
          [fun x _ => if x = 0 then Content.coloredString ⟨"中", Color.white⟩
            else Content.transparent] 0 2) 1 ≠ some Item.blank := by
  refine ⟨by decide, by omega, by decide, by decide⟩

/-- C3 (amended): at every coordinate the scan queries directly, if
every layer reports `Transparent` or `Compensate` there, the emitted
item for that position is exactly one blank, and the scan continues at
the next column `x + 1`. -/
theorem all_transparent_blank_at_scanned_column (ls : List Layer)
    (y width x : Nat)
    (hall : ∀ f ∈ ls, f x y = Content.transparent ∨ f x y = Content.compensate)
    (hx : x ∈ (renderRow ls y width).map Prod.fst) :
    (x, Item.blank) ∈ renderRow ls y width ∧
      (∀ it, (x, it) ∈ renderRow ls y width → it = Item.blank) ∧
      ∀ fuel, x < width →
        renderRowAux ls y width (fuel + 1) x =
          (x, Item.blank) :: renderRowAux ls y width fuel (x + 1) := by
  have h0 : findContent ls x y = none := findContent_eq_none_of_all hall
  have hdet : ∀ it, (x, it) ∈ renderRow ls y width → it = Item.blank := by
    intro it hit
    unfold renderRow at hit
    have h := renderRowAux_mem_item hit
    rw [h0] at h
    exact h
  rcases exists_item_of_fst_mem hx with ⟨it, hit⟩
  exact ⟨hdet it hit ▸ hit, hdet, fun fuel hlt => renderRowAux_blank fuel hlt h0⟩

/-- C3 (witness): instantiation of the amended theorem on a one-column
grid with a single all-transparent layer. -/
theorem all_transparent_blank_witness :
    (∀ f ∈ [(fun _ _ => Content.transparent : Layer)],
      f 0 0 = Content.transparent ∨ f 0 0 = Content.compensate) ∧
    (0 ∈ (renderRow [fun _ _ => Content.transparent] 0 1).map Prod.fst) ∧
    ((0, Item.blank) ∈ renderRow [fun _ _ => Content.transparent] 0 1 ∧
      (∀ it, (0, it) ∈ renderRow [fun _ _ => Content.transparent] 0 1 →
        it = Item.blank) ∧
      ∀ fuel, 0 < 1 →
        renderRowAux [fun _ _ => Content.transparent] 0 1 (fuel + 1) 0 =
          (0, Item.blank) :: renderRowAux [fun _ _ => Content.transparent] 0 1 fuel 1) :=
  ⟨by decide, by decide,
    all_transparent_blank_at_scanned_column [fun _ _ => Content.transparent] 0 1 0
      (by decide) (by decide)⟩

/-! ## Claim C4 -/

/-- C4: a `Compensate` result returned by a layer at a directly queried
cell does not block lower layers: the resolution of a stack containing
it equals the resolution of the stack with that layer removed (exactly
as for a `Transparent` report), and the resolution never yields a
`Compensate` (nor a `Transparent`): every resolved content is an opaque
glyph, so a `Compensate` is never emitted as a cell's rendered
content. -/
theorem compensate_never_blocks (ls₁ ls₂ : List Layer) (f : Layer) (x y : Nat)
    (hf : f x y = Content.compensate) :
    findContent (ls₁ ++ f :: ls₂) x y = findContent (ls₁ ++ ls₂) x y ∧
      ∀ (ls : List Layer) (c : Content), findContent ls x y = some c →
        ∃ s, c = Content.coloredString s := by
  constructor
  · induction ls₁ with
    | nil =>
      rw [List.nil_append, List.nil_append, findContent_cons, hf]
      simp [isOpaque]
    | cons a t ih =>
      rw [List.cons_append, List.cons_append, findContent_cons, findContent_cons, ih]
  · intro ls c h
    exact isOpaque_iff.mp (findContent_first_hit h)

/-- C4 (witness): instantiation with a front layer reporting
`Compensate` over a back layer reporting an opaque glyph. -/
theorem compensate_never_blocks_witness :
    ((fun _ _ => Content.compensate) : Layer) 0 0 = Content.compensate ∧
    (findContent
        [(fun _ _ => Content.compensate : Layer),
         fun _ _ => Content.coloredString ⟨"Y", Color.white⟩] 0 0 =
      findContent [fun _ _ => Content.coloredString ⟨"Y", Color.white⟩] 0 0 ∧
      ∀ (ls : List Layer) (c : Content), findContent ls 0 0 = some c →
        ∃ s, c = Content.coloredString s) :=
  ⟨rfl,
    compensate_never_blocks []
      [fun _ _ => Content.coloredString ⟨"Y", Color.white⟩]
      (fun _ _ => Content.compensate) 0 0 rfl⟩

/-! ## `SnowFrame` characterization lemmas -/

/-- Evaluation of `SnowFrame::update` on unchanged dimensions (the regular tick, for a
state whose history is sized to its height): rotate the cursor backward
by one modulo the height and rewrite only the row aliased to the new
cursor. -/
theorem SnowFrame.update_unchanged (s : SnowFrame)
    (hne0 : s.frame_height ≠ 0) (hsz : s.snows_row.length = s.frame_height) :
    s.update s.frame_width s.frame_height =
      some { s with
        cursor := (s.cursor + s.frame_height - 1) % s.frame_height,
        snows_row := s.snows_row.set
          ((s.cursor + s.frame_height - 1) % s.frame_height)
          (snowFill s.thread_rng s.frame_width).1,
        thread_rng := (snowFill s.thread_rng s.frame_width).2 } := by
  have hcur : (s.cursor + s.frame_height - 1) % s.frame_height < s.frame_height :=
    Nat.mod_lt _ (Nat.pos_of_ne_zero hne0)
  unfold SnowFrame.update
  rw [if_neg (by simp), if_neg hne0]
  dsimp only
  rw [if_pos (by simpa [hsz] using hcur)]

/-- Evaluation of `SnowFrame::update` on changed dimensions with nonzero height:
rebuild the history sized to the new dimensions, reset the cursor to `0`,
and fill the new row `0`. -/
theorem SnowFrame.update_changed (s : SnowFrame) {w h : Nat}
    (hne : s.frame_width ≠ w ∨ s.frame_height ≠ h) (hh : h ≠ 0) :
    s.update w h =
      some { thread_rng := (snowFill s.thread_rng w).2,
             frame_width := w, frame_height := h, cursor := 0,
             snows_row := (List.replicate h (∅ : Finset Nat)).set 0
               (snowFill s.thread_rng w).1 } := by
  unfold SnowFrame.update
  rw [if_pos hne]
  dsimp only
  rw [if_pos (by simp [List.length_replicate]; omega)]

/-- Evaluation of `SnowFrame::update` to a zero-height grid: it panics
(`snows_row[cursor]` on an empty vector). -/
theorem SnowFrame.update_changed_height0 (s : SnowFrame) {w : Nat}
    (hne : s.frame_width ≠ w ∨ s.frame_height ≠ 0) :
    s.update w 0 = none := by
  unfold SnowFrame.update
  rw [if_pos hne]
  dsimp only
  rw [if_neg (by simp)]

/-- Evaluation of `SnowFrame::update` on an unchanged zero-height grid: it panics
(`% 0`, or underflow of `cursor + 0 - 1` in a debug build). -/
theorem SnowFrame.update_same_height0 (s : SnowFrame)
    (h0 : s.frame_height = 0) :
    s.update s.frame_width s.frame_height = none := by
  unfold SnowFrame.update
  rw [if_neg (by simp), if_pos h0]

/-- The content `SnowFrame::get_content` reports, given the physical row
the queried logical row aliases to. -/
theorem SnowFrame.get_content_fst (s : SnowFrame) {y : Nat} {row : Finset Nat}
    (hh : s.frame_height ≠ 0)
    (hrow : s.snows_row.get? ((s.cursor + y) % s.frame_height) = some row)
    (x : Nat) :
    (s.get_content x y).map Prod.fst =
      some (if x ∈ row then Content.coloredString ⟨"o", Color.white⟩
            else Content.transparent) := by
  unfold SnowFrame.get_content
  rw [if_neg hh, hrow]
  by_cases hx : x ∈ row <;> simp [hx]

/-- Totality of `SnowFrame::get_content`: it is total on any state whose history is
sized to a nonzero height. -/
theorem SnowFrame.snow_get_content_defined (s : SnowFrame)
    (hh : s.frame_height ≠ 0) (hsz : s.snows_row.length = s.frame_height)
    (x y : Nat) : (s.get_content x y).isSome = true := by
  have hlt : (s.cursor + y) % s.frame_height < s.snows_row.length := by
    rw [hsz]; exact Nat.mod_lt _ (Nat.pos_of_ne_zero hh)
  unfold SnowFrame.get_content
  rw [if_neg hh]
  cases hg : s.snows_row.get? ((s.cursor + y) % s.frame_height) with
  | none => exact absurd (List.get?_eq_none.mp hg) (by omega)
  | some row => by_cases hx : x ∈ row <;> simp [hx]

/-! ## Claim C5 -/

/-- C5: scroll continuity of the snow layer.  Across one `update` call
with unchanged dimensions, the content reported at logical row `k + 1`
afterwards equals the content reported at logical row `k` before, for
every `k` with `k + 1 < height` and every column `x`: the snow shifts
down by exactly one row per tick, no row skipped or duplicated, because
the cursor rotates backward by one modulo the height and only the row
aliased to the new cursor is rewritten. -/
theorem snow_scroll_continuity (s s' : SnowFrame)
    (hsz : s.snows_row.length = s.frame_height)
    (hup : s.update s.frame_width s.frame_height = some s')
    (k x : Nat) (hk : k + 1 < s.frame_height) :
    (s'.get_content x (k + 1)).map Prod.fst =
      (s.get_content x k).map Prod.fst := by
  have hh : s.frame_height ≠ 0 := by omega
  rw [SnowFrame.update_unchanged s hh hsz] at hup
  obtain rfl : _ = s' := Option.some.inj hup
  have hpos : 0 < s.frame_height := Nat.pos_of_ne_zero hh
  have hidx : ((s.cursor + s.frame_height - 1) % s.frame_height + (k + 1)) %
      s.frame_height = (s.cursor + k) % s.frame_height := by
    rw [Nat.mod_add_mod]
    have h1 : s.cursor + s.frame_height - 1 + (k + 1) =
        s.cursor + k + s.frame_height := by omega
    rw [h1, Nat.add_mod_right]
  have hlt : (s.cursor + k) % s.frame_height < s.frame_height :=
    Nat.mod_lt _ hpos
  have hneq : (s.cursor + s.frame_height - 1) % s.frame_height ≠
      (s.cursor + k) % s.frame_height := by
    intro heq
    have h1 : s.cursor + s.frame_height - 1 =
        s.cursor + (s.frame_height - 1) := by omega
    rw [h1] at heq
    have h2 : (s.frame_height - 1) % s.frame_height = k % s.frame_height :=
      Nat.ModEq.add_left_cancel' s.cursor heq
    rw [Nat.mod_eq_of_lt (by omega), Nat.mod_eq_of_lt (by omega)] at h2
    omega
  obtain ⟨row, hrow⟩ : ∃ row, s.snows_row.get?
      ((s.cursor + k) % s.frame_height) = some row := by
    cases hg : s.snows_row.get? ((s.cursor + k) % s.frame_height) with
    | none => exact absurd (List.get?_eq_none.mp hg) (by omega)
    | some row => exact ⟨row, rfl⟩
  have hrow' : (s.snows_row.set
      ((s.cursor + s.frame_height - 1) % s.frame_height)
      (snowFill s.thread_rng s.frame_width).1).get?
        (((s.cursor + s.frame_height - 1) % s.frame_height + (k + 1)) %
          s.frame_height) = some row := by
    rw [hidx, List.get?_set_ne _ _ hneq]
    exact hrow
  rw [SnowFrame.get_content_fst
      { s with
        cursor := (s.cursor + s.frame_height - 1) % s.frame_height,
        snows_row := s.snows_row.set
          ((s.cursor + s.frame_height - 1) % s.frame_height)
          (snowFill s.thread_rng s.frame_width).1,
        thread_rng := (snowFill s.thread_rng s.frame_width).2 }
      hh hrow' x,
    SnowFrame.get_content_fst s hh hrow x]

/-- C5 (witness): one concrete tick on a 2×3 snow state. -/
theorem snow_scroll_continuity_witness :
    ((⟨⟨[1, 1, 1, 1, 1, 1]⟩, 2, 3, 0, [{0}, {1}, ∅]⟩ : SnowFrame).snows_row.length =
      (⟨⟨[1, 1, 1, 1, 1, 1]⟩, 2, 3, 0, [{0}, {1}, ∅]⟩ : SnowFrame).frame_height) ∧
    (SnowFrame.update ⟨⟨[1, 1, 1, 1, 1, 1]⟩, 2, 3, 0, [{0}, {1}, ∅]⟩ 2 3 =
      some ⟨⟨[1, 1, 1, 1]⟩, 2, 3, 2, [{0}, {1}, ∅]⟩) ∧
    0 + 1 < 3 ∧
    ((SnowFrame.get_content ⟨⟨[1, 1, 1, 1]⟩, 2, 3, 2, [{0}, {1}, ∅]⟩ 0 (0 + 1)).map
        Prod.fst =
      (SnowFrame.get_content ⟨⟨[1, 1, 1, 1, 1, 1]⟩, 2, 3, 0, [{0}, {1}, ∅]⟩ 0 0).map
        Prod.fst) :=
  ⟨by decide, by decide, by omega,
    snow_scroll_continuity ⟨⟨[1, 1, 1, 1, 1, 1]⟩, 2, 3, 0, [{0}, {1}, ∅]⟩
      ⟨⟨[1, 1, 1, 1]⟩, 2, 3, 2, [{0}, {1}, ∅]⟩ (by decide) (by decide) 0 0
      (by decide)⟩

/-! ## Claim C10 -/

/-- C10: frame condition of `SnowFrame::update` on an unchanged-size
tick.  Only the cursor and the single history row aliased to the new
cursor change: the dimensions are untouched, the history keeps its
length, and every history row other than the one at the new cursor is
exactly as before the call.  (The struct's `thread_rng` field is a
handle to the thread-local generator and is itself unchanged; its
reified stream advances.) -/
theorem snow_update_frame_condition (s s' : SnowFrame)
    (hsz : s.snows_row.length = s.frame_height)
    (hup : s.update s.frame_width s.frame_height = some s') :
    s'.frame_width = s.frame_width ∧ s'.frame_height = s.frame_height ∧
      s'.cursor = (s.cursor + s.frame_height - 1) % s.frame_height ∧
      s'.snows_row.length = s.snows_row.length ∧
      ∀ j, j ≠ s'.cursor → s'.snows_row.get? j = s.snows_row.get? j := by
  have hh : s.frame_height ≠ 0 := by
    intro h0
    rw [SnowFrame.update_same_height0 s h0] at hup
    exact Option.noConfusion hup
  rw [SnowFrame.update_unchanged s hh hsz] at hup
  obtain rfl : _ = s' := Option.some.inj hup
  refine ⟨rfl, rfl, rfl, by simp, ?_⟩
  intro j hj
  exact List.get?_set_ne _ _ fun h => hj (h ▸ rfl)

/-- C10 (witness): one concrete unchanged-size tick on a 2×3 state. -/
theorem snow_update_frame_condition_witness :
    ((⟨⟨[1, 21, 1, 1]⟩, 2, 3, 1, [{1}, ∅, {0}]⟩ : SnowFrame).snows_row.length =
      (⟨⟨[1, 21, 1, 1]⟩, 2, 3, 1, [{1}, ∅, {0}]⟩ : SnowFrame).frame_height) ∧
    (SnowFrame.update ⟨⟨[1, 21, 1, 1]⟩, 2, 3, 1, [{1}, ∅, {0}]⟩ 2 3 =
      some ⟨⟨[1, 1]⟩, 2, 3, 0, [{1}, ∅, {0}]⟩) ∧
    ((⟨⟨[1, 1]⟩, 2, 3, 0, [{1}, ∅, {0}]⟩ : SnowFrame).frame_width = 2 ∧
      (⟨⟨[1, 1]⟩, 2, 3, 0, [{1}, ∅, {0}]⟩ : SnowFrame).frame_height = 3 ∧
      (⟨⟨[1, 1]⟩, 2, 3, 0, [{1}, ∅, {0}]⟩ : SnowFrame).cursor = (1 + 3 - 1) % 3 ∧
      (⟨⟨[1, 1]⟩, 2, 3, 0, [{1}, ∅, {0}]⟩ : SnowFrame).snows_row.length = 3 ∧
      ∀ j, j ≠ (⟨⟨[1, 1]⟩, 2, 3, 0, [{1}, ∅, {0}]⟩ : SnowFrame).cursor →
        (⟨⟨[1, 1]⟩, 2, 3, 0, [{1}, ∅, {0}]⟩ : SnowFrame).snows_row.get? j =
          (⟨⟨[1, 21, 1, 1]⟩, 2, 3, 1, [{1}, ∅, {0}]⟩ : SnowFrame).snows_row.get? j) :=
  ⟨by decide, by decide,
    snow_update_frame_condition ⟨⟨[1, 21, 1, 1]⟩, 2, 3, 1, [{1}, ∅, {0}]⟩
      ⟨⟨[1, 1]⟩, 2, 3, 0, [{1}, ∅, {0}]⟩ (by decide) (by decide)⟩

/-! ## Claim C7 -/

/-- C7 (counterexample): resizing to a zero-height grid crashes.  A
state with prior dimensions 5×4 updated to the new, different
dimensions 3×0 panics (`snows_row[0]` on the freshly rebuilt empty
history), so the claim's quantification over all new dimension values,
height `0` included, fails. -/
theorem snow_resize_height0_counterexample :
    ((⟨⟨[]⟩, 5, 4, 0, List.replicate 4 ∅⟩ : SnowFrame).frame_width ≠ 3 ∨
      (⟨⟨[]⟩, 5, 4, 0, List.replicate 4 ∅⟩ : SnowFrame).frame_height ≠ 0) ∧
    SnowFrame.update ⟨⟨[]⟩, 5, 4, 0, List.replicate 4 ∅⟩ 3 0 = none := by
  refine ⟨by decide, by decide⟩

/-- C7 (amended): for every new dimension pair with `height ≥ 1`,
`update` after a prior call with different dimensions succeeds, rebuilds
the history sized to the new dimensions with the cursor and animation
phase reset (cursor `0`, every row except the freshly drawn row `0`
empty), and afterwards `get_content` is answerable on every coordinate
of `[0, width) × [0, height)`.  With `height = 0` the call panics. -/
theorem snow_resize_reset (s : SnowFrame) (w h : Nat)
    (hne : s.frame_width ≠ w ∨ s.frame_height ≠ h) (hh : h ≠ 0) :
    ∃ s', s.update w h = some s' ∧
      s'.frame_width = w ∧ s'.frame_height = h ∧ s'.cursor = 0 ∧
      s'.snows_row.length = h ∧
      (∀ j, 0 < j → j < h → s'.snows_row.get? j = some ∅) ∧
      ∀ x y, x < w → y < h → (s'.get_content x y).isSome = true := by
  refine ⟨_, SnowFrame.update_changed s hne hh, rfl, rfl, rfl, by simp, ?_, ?_⟩
  · intro j hj0 hjh
    show ((List.replicate h (∅ : Finset Nat)).set 0
      (snowFill s.thread_rng w).1).get? j = some ∅
    rw [List.get?_set_ne _ _ (by omega), List.get?_eq_getElem?,
      List.getElem?_replicate, if_pos hjh]
  · intro x y _ _
    exact SnowFrame.snow_get_content_defined
      { thread_rng := (snowFill s.thread_rng w).2,
        frame_width := w, frame_height := h, cursor := 0,
        snows_row := (List.replicate h (∅ : Finset Nat)).set 0
          (snowFill s.thread_rng w).1 }
      hh (by simp) x y

/-- C7 (witness): resize from the initial 0×0 state to 2×2. -/
theorem snow_resize_reset_witness :
    ((⟨⟨[1, 1]⟩, 0, 0, 0, []⟩ : SnowFrame).frame_width ≠ 2 ∨
      (⟨⟨[1, 1]⟩, 0, 0, 0, []⟩ : SnowFrame).frame_height ≠ 2) ∧
    (2 : Nat) ≠ 0 ∧
    (∃ s', SnowFrame.update ⟨⟨[1, 1]⟩, 0, 0, 0, []⟩ 2 2 = some s' ∧
      s'.frame_width = 2 ∧ s'.frame_height = 2 ∧ s'.cursor = 0 ∧
      s'.snows_row.length = 2 ∧
      (∀ j, 0 < j → j < 2 → s'.snows_row.get? j = some ∅) ∧
      ∀ x y, x < 2 → y < 2 → (s'.get_content x y).isSome = true) :=
  ⟨by decide, by decide,
    snow_resize_reset ⟨⟨[1, 1]⟩, 0, 0, 0, []⟩ 2 2 (by decide) (by decide)⟩

/-! ## Claim C6 -/

/-- Totality of `ChristmasTreeFrame::get_content` at every coordinate and
every stored dimension pair (in particular heights below the art's 14
rows and widths below the caption's display width 13): under release
`usize` wrapping, an undersized dimension makes the computed offsets
huge, every band test fails, and the cell is transparent; the two
vector indexings are guarded in range. -/
theorem ChristmasTreeFrame.tree_get_content_defined (t : ChristmasTreeFrame)
    (x y : Nat) : (t.get_content x y).isSome = true := by
  have htrunk : (string_to_content_vec "mWm" BROWN).length = 3 := by decide
  have hbless : (string_to_content_vec "2024 聖誕快樂" Color.red).length = 13 := by
    decide
  have hblessw : stringWidth "2024 聖誕快樂" = 13 := by decide
  unfold ChristmasTreeFrame.get_content
  dsimp only
  split
  · rfl
  · split
    · split
      · rfl
      · rfl
    · split
      · split
        · rfl
        · split
          · rfl
          · exfalso
            rename_i hnone
            have hlen := List.get?_eq_none.mp hnone
            omega
      · split
        · rfl
        · split
          · split
            · rfl
            · split
              · rfl
              · exfalso
                rename_i hnone
                have hlen := List.get?_eq_none.mp hnone
                omega
          · rfl

/-- C6: totality of every shipped layer's `get_content` after an
`update`.  The tree layer answers every coordinate whatever its stored
dimensions (including heights below 14 and widths below the caption's
display width).  The snow layer answers every in-range coordinate after
any successful `update` from a history-sized state; an `update` to
height `0` panics before producing a state, so no queryable state with
height `0` arises. -/
theorem shipped_layers_get_content_total :
    (∀ (t : ChristmasTreeFrame) (x y : Nat),
      (t.get_content x y).isSome = true) ∧
    ∀ (s s' : SnowFrame) (w h x y : Nat),
      s.snows_row.length = s.frame_height → s.update w h = some s' →
      x < w → y < h → (s'.get_content x y).isSome = true := by
  refine ⟨ChristmasTreeFrame.tree_get_content_defined, ?_⟩
  intro s s' w h x y hsz hup hx hy
  by_cases hne : s.frame_width ≠ w ∨ s.frame_height ≠ h
  · by_cases hh : h = 0
    · subst hh
      rw [SnowFrame.update_changed_height0 s hne] at hup
      exact Option.noConfusion hup
    · rw [SnowFrame.update_changed s hne hh] at hup
      obtain rfl : _ = s' := Option.some.inj hup
      exact SnowFrame.snow_get_content_defined _ hh (by simp) x y
  · push_neg at hne
    obtain ⟨hw, hhh⟩ := hne
    subst hw; subst hhh
    have hh : s.frame_height ≠ 0 := by
      intro h0
      rw [SnowFrame.update_same_height0 s h0] at hup
      exact Option.noConfusion hup
    rw [SnowFrame.update_unchanged s hh hsz] at hup
    obtain rfl : _ = s' := Option.some.inj hup
    exact SnowFrame.snow_get_content_defined
      { s with
        cursor := (s.cursor + s.frame_height - 1) % s.frame_height,
        snows_row := s.snows_row.set
          ((s.cursor + s.frame_height - 1) % s.frame_height)
          (snowFill s.thread_rng s.frame_width).1,
        thread_rng := (snowFill s.thread_rng s.frame_width).2 }
      hh (by simp [hsz]) x y

/-- C6 (witness): the tree layer on an undersized 2×5 grid, and the snow
layer after a resize of the initial state to 2×3. -/
theorem shipped_layers_get_content_total_witness :
    ((ChristmasTreeFrame.get_content ⟨⟨[]⟩, 2, 5⟩ 0 0).isSome = true) ∧
    ((⟨⟨[1, 1]⟩, 0, 0, 0, []⟩ : SnowFrame).snows_row.length =
      (⟨⟨[1, 1]⟩, 0, 0, 0, []⟩ : SnowFrame).frame_height) ∧
    (SnowFrame.update ⟨⟨[1, 1]⟩, 0, 0, 0, []⟩ 2 3 =
      some ⟨⟨[]⟩, 2, 3, 0, [∅, ∅, ∅]⟩) ∧
    0 < 2 ∧ 0 < 3 ∧
    ((SnowFrame.get_content ⟨⟨[]⟩, 2, 3, 0, [∅, ∅, ∅]⟩ 0 0).isSome = true) :=
  ⟨shipped_layers_get_content_total.1 ⟨⟨[]⟩, 2, 5⟩ 0 0, by decide, by decide,
    by omega, by omega,
    shipped_layers_get_content_total.2 ⟨⟨[1, 1]⟩, 0, 0, 0, []⟩
      ⟨⟨[]⟩, 2, 3, 0, [∅, ∅, ∅]⟩ 2 3 0 0 (by decide) (by decide) (by decide)
      (by decide)⟩


/-! ## Claim C8: state effects of the render step -/

theorem SnowFrame.get_content_state {s s₂ : SnowFrame} {x y : Nat} {c : Content}
    (h : s.get_content x y = some (c, s₂)) : s₂ = s := by
  unfold SnowFrame.get_content at h
  split at h
  · exact Option.noConfusion h
  · split at h
    · exact Option.noConfusion h
    · split at h <;>
        (simp only [Option.some.injEq, Prod.mk.injEq] at h; exact h.2.symm)

theorem ChristmasTreeFrame.get_leaf_dims (t : ChristmasTreeFrame) :
    (t.get_leaf).2.frame_width = t.frame_width ∧
      (t.get_leaf).2.frame_height = t.frame_height := by
  unfold ChristmasTreeFrame.get_leaf ChristmasTreeFrame.get_leaf_color
  dsimp only
  split <;> exact ⟨rfl, rfl⟩

theorem ChristmasTreeFrame.get_content_dims {t t₂ : ChristmasTreeFrame}
    {x y : Nat} {c : Content} (h : t.get_content x y = some (c, t₂)) :
    t₂.frame_width = t.frame_width ∧ t₂.frame_height = t.frame_height := by
  unfold ChristmasTreeFrame.get_content at h
  dsimp only at h
  split at h
  · simp only [Option.some.injEq, Prod.mk.injEq] at h
    rw [← h.2]; exact ⟨rfl, rfl⟩
  · split at h
    · split at h
      · simp only [Option.some.injEq, Prod.mk.injEq] at h
        rw [← h.2]; exact ⟨rfl, rfl⟩
      · simp only [Option.some.injEq, Prod.mk.injEq] at h
        rw [← h.2]
        exact ChristmasTreeFrame.get_leaf_dims t
    · split at h
      · split at h
        · simp only [Option.some.injEq, Prod.mk.injEq] at h
          rw [← h.2]; exact ⟨rfl, rfl⟩
        · split at h
          · simp only [Option.some.injEq, Prod.mk.injEq] at h
            rw [← h.2]; exact ⟨rfl, rfl⟩
          · exact Option.noConfusion h
      · split at h
        · simp only [Option.some.injEq, Prod.mk.injEq] at h
          rw [← h.2]; exact ⟨rfl, rfl⟩
        · split at h
          · split at h
            · simp only [Option.some.injEq, Prod.mk.injEq] at h
              rw [← h.2]; exact ⟨rfl, rfl⟩
            · split at h
              · simp only [Option.some.injEq, Prod.mk.injEq] at h
                rw [← h.2]; exact ⟨rfl, rfl⟩
              · exact Option.noConfusion h
          · simp only [Option.some.injEq, Prod.mk.injEq] at h
            rw [← h.2]; exact ⟨rfl, rfl⟩

theorem FrameS.eqUpToRng_refl : ∀ f : FrameS, f.eqUpToRng f
  | FrameS.snow _ => ⟨rfl, rfl, rfl, rfl⟩
  | FrameS.tree _ => ⟨rfl, rfl⟩

theorem FrameS.eqUpToRng_trans :
    ∀ {a b c : FrameS}, a.eqUpToRng b → b.eqUpToRng c → a.eqUpToRng c := by
  intro a b c hab hbc
  cases a <;> cases b <;> cases c <;>
    simp_all [FrameS.eqUpToRng, SnowFrame.eqUpToRng, ChristmasTreeFrame.eqUpToRng]

theorem FrameS.get_content_eqUpToRng {f f' : FrameS} {x y : Nat} {c : Content}
    (h : f.get_content x y = some (c, f')) : f.eqUpToRng f' := by
  cases f with
  | snow s =>
    simp only [FrameS.get_content] at h
    cases hg : s.get_content x y with
    | none => rw [hg] at h; exact Option.noConfusion h
    | some p =>
      obtain ⟨c2, s2⟩ := p
      rw [hg] at h
      simp at h
      obtain ⟨-, h2⟩ := h
      rw [← h2, SnowFrame.get_content_state hg]
      exact ⟨rfl, rfl, rfl, rfl⟩
  | tree t =>
    simp only [FrameS.get_content] at h
    cases hg : t.get_content x y with
    | none => rw [hg] at h; exact Option.noConfusion h
    | some p =>
      obtain ⟨c2, t2⟩ := p
      rw [hg] at h
      simp at h
      obtain ⟨-, h2⟩ := h
      rw [← h2]
      have hd := ChristmasTreeFrame.get_content_dims hg
      exact ⟨hd.1.symm, hd.2.symm⟩

theorem forall₂_eqUpToRng_refl : ∀ fs : List FrameS,
    List.Forall₂ FrameS.eqUpToRng fs fs
  | [] => List.Forall₂.nil
  | f :: rest =>
    List.Forall₂.cons (FrameS.eqUpToRng_refl f) (forall₂_eqUpToRng_refl rest)

theorem forall₂_eqUpToRng_trans : ∀ {fs gs hs : List FrameS},
    List.Forall₂ FrameS.eqUpToRng fs gs → List.Forall₂ FrameS.eqUpToRng gs hs →
    List.Forall₂ FrameS.eqUpToRng fs hs := by
  intro fs gs hs h1 h2
  induction h1 generalizing hs with
  | nil => cases h2; exact List.Forall₂.nil
  | cons hab htail ih =>
    cases h2 with
    | cons hbc h2tail =>
      exact List.Forall₂.cons (FrameS.eqUpToRng_trans hab hbc) (ih h2tail)

theorem findContentS_eqUpToRng : ∀ {fs : List FrameS} {x y : Nat}
    {r : Option ColoredString} {fs' : List FrameS},
    findContentS fs x y = some (r, fs') →
    List.Forall₂ FrameS.eqUpToRng fs fs' := by
  intro fs
  induction fs with
  | nil =>
    intro x y r fs' h
    simp only [findContentS] at h
    obtain ⟨-, h2⟩ := Prod.mk.injEq .. ▸ Option.some.inj h
    rw [← h2]
    exact List.Forall₂.nil
  | cons f rest ih =>
    intro x y r fs' h
    simp only [findContentS] at h
    cases hg : f.get_content x y with
    | none => rw [hg] at h; exact Option.noConfusion h
    | some p =>
      obtain ⟨c, f2⟩ := p
      rw [hg] at h
      cases c with
      | coloredString s =>
        simp only [Option.some.injEq, Prod.mk.injEq] at h
        obtain ⟨-, h2⟩ := h
        rw [← h2]
        exact List.Forall₂.cons (FrameS.get_content_eqUpToRng hg)
          (forall₂_eqUpToRng_refl rest)
      | transparent =>
        cases hrec : findContentS rest x y with
        | none => rw [hrec] at h; exact Option.noConfusion h
        | some q =>
          obtain ⟨r2, rest'⟩ := q
          rw [hrec] at h
          simp only [Option.some.injEq, Prod.mk.injEq] at h
          obtain ⟨-, h2⟩ := h
          rw [← h2]
          exact List.Forall₂.cons (FrameS.get_content_eqUpToRng hg) (ih hrec)
      | compensate =>
        cases hrec : findContentS rest x y with
        | none => rw [hrec] at h; exact Option.noConfusion h
        | some q =>
          obtain ⟨r2, rest'⟩ := q
          rw [hrec] at h
          simp only [Option.some.injEq, Prod.mk.injEq] at h
          obtain ⟨-, h2⟩ := h
          rw [← h2]
          exact List.Forall₂.cons (FrameS.get_content_eqUpToRng hg) (ih hrec)

theorem printRowAux_eqUpToRng {width y : Nat} : ∀ {fuel x : Nat}
    {fs : List FrameS} {items : List Item} {fs' : List FrameS},
    printRowAux width y fuel x fs = some (items, fs') →
    List.Forall₂ FrameS.eqUpToRng fs fs' := by
  intro fuel
  induction fuel with
  | zero =>
    intro x fs items fs' h
    simp only [printRowAux] at h
    obtain ⟨-, h2⟩ := Prod.mk.injEq .. ▸ Option.some.inj h
    rw [← h2]
    exact forall₂_eqUpToRng_refl fs
  | succ n ih =>
    intro x fs items fs' h
    simp only [printRowAux] at h
    split at h
    · cases hfind : findContentS fs x y with
      | none => rw [hfind] at h; exact Option.noConfusion h
      | some q =>
        obtain ⟨r, fs1⟩ := q
        rw [hfind] at h
        cases r with
        | some s =>
          dsimp only at h
          cases hrec : printRowAux width y n (wadd (wadd x (wsub s.width 1)) 1) fs1 with
          | none => rw [hrec] at h; exact Option.noConfusion h
          | some q2 =>
            obtain ⟨items2, fs2⟩ := q2
            rw [hrec] at h
            simp only [Option.some.injEq, Prod.mk.injEq] at h
            obtain ⟨-, h2⟩ := h
            rw [← h2]
            exact forall₂_eqUpToRng_trans (findContentS_eqUpToRng hfind) (ih hrec)
        | none =>
          dsimp only at h
          cases hrec : printRowAux width y n (x + 1) fs1 with
          | none => rw [hrec] at h; exact Option.noConfusion h
          | some q2 =>
            obtain ⟨items2, fs2⟩ := q2
            rw [hrec] at h
            simp only [Option.some.injEq, Prod.mk.injEq] at h
            obtain ⟨-, h2⟩ := h
            rw [← h2]
            exact forall₂_eqUpToRng_trans (findContentS_eqUpToRng hfind) (ih hrec)
    · obtain ⟨-, h2⟩ := Prod.mk.injEq .. ▸ Option.some.inj h
      rw [← h2]
      exact forall₂_eqUpToRng_refl fs

theorem printRowsAux_eqUpToRng {width : Nat} : ∀ {ys : List Nat}
    {fs : List FrameS} {rows : List (List Item)} {fs' : List FrameS},
    printRowsAux width ys fs = some (rows, fs') →
    List.Forall₂ FrameS.eqUpToRng fs fs' := by
  intro ys
  induction ys with
  | nil =>
    intro fs rows fs' h
    simp only [printRowsAux] at h
    obtain ⟨-, h2⟩ := Prod.mk.injEq .. ▸ Option.some.inj h
    rw [← h2]
    exact forall₂_eqUpToRng_refl fs
  | cons y ys ih =>
    intro fs rows fs' h
    simp only [printRowsAux] at h
    cases hrow : printRowAux width y width 0 fs with
    | none => rw [hrow] at h; exact Option.noConfusion h
    | some q =>
      obtain ⟨row, fs1⟩ := q
      rw [hrow] at h
      dsimp only at h
      cases hrec : printRowsAux width ys fs1 with
      | none => rw [hrec] at h; exact Option.noConfusion h
      | some q2 =>
        obtain ⟨rows2, fs2⟩ := q2
        rw [hrec] at h
        simp only [Option.some.injEq, Prod.mk.injEq] at h
        obtain ⟨-, h2⟩ := h
        rw [← h2]
        exact forall₂_eqUpToRng_trans (printRowAux_eqUpToRng hrow) (ih hrec)

/-- C8 (counterexample): the render step does mutate layer state, and
`get_content` is not a pure query: on a 1×14 tree frame the leaf cell at
the origin draws from the RNG, so `print` returns a frame whose RNG
state differs from the input, and two successive `get_content` calls
with the same arguments return different glyphs (`o` colored red, then
`*` colored green). -/
theorem print_no_mutation_counterexample :
    (Printer.print 1 1 [FrameS.tree ⟨⟨[0, 0, 1]⟩, 1, 14⟩]).map Prod.snd ≠
      some [FrameS.tree ⟨⟨[0, 0, 1]⟩, 1, 14⟩] ∧
    (ChristmasTreeFrame.get_content ⟨⟨[0, 0, 1]⟩, 1, 14⟩ 0 0 =
      some (Content.coloredString ⟨"o", Color.red⟩, ⟨⟨[1]⟩, 1, 14⟩)) ∧
    (ChristmasTreeFrame.get_content ⟨⟨[1]⟩, 1, 14⟩ 0 0 =
      some (Content.coloredString ⟨"*", Color.green⟩, ⟨⟨[]⟩, 1, 14⟩)) ∧
    Content.coloredString (⟨"o", Color.red⟩ : ColoredString) ≠
      Content.coloredString ⟨"*", Color.green⟩ := by
  refine ⟨by decide, by decide, by decide, by decide⟩

/-- C8 (amended): the render step mutates no layer state other than the
layers' private random generators.  `Printer::print` leaves every frame
equal to its input frame up to the reified RNG state (dimensions, cursor
and snow history unchanged); the snow layer's `get_content` is fully
pure (it returns its state unchanged), and the tree layer's
`get_content` changes at most its RNG (its cached dimensions are
untouched), so repeated identical queries may differ only in the
randomly drawn leaf glyph. -/
theorem print_mutates_only_rng :
    (∀ (w h : Nat) (fs : List FrameS) (rows : List (List Item))
        (fs' : List FrameS),
      Printer.print w h fs = some (rows, fs') →
      List.Forall₂ FrameS.eqUpToRng fs fs') ∧
    (∀ (s s₂ : SnowFrame) (x y : Nat) (c : Content),
      s.get_content x y = some (c, s₂) → s₂ = s) ∧
    ∀ (t t₂ : ChristmasTreeFrame) (x y : Nat) (c : Content),
      t.get_content x y = some (c, t₂) →
      t₂.frame_width = t.frame_width ∧ t₂.frame_height = t.frame_height := by
  refine ⟨?_, fun s s₂ x y c h => SnowFrame.get_content_state h,
    fun t t₂ x y c h => ChristmasTreeFrame.get_content_dims h⟩
  intro w h fs rows fs' hp
  exact printRowsAux_eqUpToRng hp

/-- C8 (witness): one concrete render of the tree frame, and one
concrete pure snow query. -/
theorem print_mutates_only_rng_witness :
    (Printer.print 1 1 [FrameS.tree ⟨⟨[0, 0, 1]⟩, 1, 14⟩] =
      some ([[Item.glyph ⟨"o", Color.red⟩]], [FrameS.tree ⟨⟨[1]⟩, 1, 14⟩])) ∧
    List.Forall₂ FrameS.eqUpToRng [FrameS.tree ⟨⟨[0, 0, 1]⟩, 1, 14⟩]
      [FrameS.tree ⟨⟨[1]⟩, 1, 14⟩] ∧
    (SnowFrame.get_content ⟨⟨[]⟩, 1, 1, 0, [{0}]⟩ 0 0 =
      some (Content.coloredString ⟨"o", Color.white⟩,
        ⟨⟨[]⟩, 1, 1, 0, [{0}]⟩)) ∧
    (⟨⟨[]⟩, 1, 1, 0, [{0}]⟩ : SnowFrame) = ⟨⟨[]⟩, 1, 1, 0, [{0}]⟩ :=
  ⟨by decide,
    print_mutates_only_rng.1 1 1 [FrameS.tree ⟨⟨[0, 0, 1]⟩, 1, 14⟩]
      [[Item.glyph ⟨"o", Color.red⟩]] [FrameS.tree ⟨⟨[1]⟩, 1, 14⟩] (by decide),
    by decide,
    print_mutates_only_rng.2.1 ⟨⟨[]⟩, 1, 1, 0, [{0}]⟩ ⟨⟨[]⟩, 1, 1, 0, [{0}]⟩
      0 0 (Content.coloredString ⟨"o", Color.white⟩) (by decide)⟩

/-! ## Claim C9 -/

theorem singleCharWidth (c : Char) (color : Color) :
    ColoredString.width ⟨String.mk [c], color⟩ = charWidth c := by
  simp [ColoredString.width, stringWidth]

theorem contSeqOk_cons_w1 {s : ColoredString} (hw : s.width ≠ 2)
    {rest : List Content}
    (hhead : rest = [] ∨ ∃ g t, rest = Content.coloredString g :: t) :
    contSeqOk (Content.coloredString s :: rest) = contSeqOk rest := by
  rcases hhead with rfl | ⟨g, t, rfl⟩ <;> simp [contSeqOk, hw]

theorem contSeqOk_cons_w2 {s : ColoredString} (hw : s.width = 2)
    (rest : List Content) :
    contSeqOk (Content.coloredString s :: Content.compensate :: rest) =
      contSeqOk rest := by
  simp [contSeqOk, hw]

theorem flatMap_shape (color : Color) (cs : List Char) :
    cs.flatMap (fun c =>
        Content.coloredString ⟨String.mk [c], color⟩ ::
          if c.toNat < 128 then [] else [Content.compensate]) = [] ∨
      ∃ g t, cs.flatMap (fun c =>
        Content.coloredString ⟨String.mk [c], color⟩ ::
          if c.toNat < 128 then [] else [Content.compensate]) =
        Content.coloredString g :: t := by
  cases cs with
  | nil => exact Or.inl rfl
  | cons c cs =>
    refine Or.inr ⟨⟨String.mk [c], color⟩,
      (if c.toNat < 128 then [] else [Content.compensate]) ++
        cs.flatMap (fun c =>
          Content.coloredString ⟨String.mk [c], color⟩ ::
            if c.toNat < 128 then [] else [Content.compensate]), ?_⟩
    rw [List.flatMap_cons, List.cons_append]

theorem contSeqOk_flatMap (color : Color) : ∀ cs : List Char,
    contSeqOk (cs.flatMap (fun c =>
      Content.coloredString ⟨String.mk [c], color⟩ ::
        if c.toNat < 128 then [] else [Content.compensate])) = true ∧
    (cs.flatMap (fun c =>
      Content.coloredString ⟨String.mk [c], color⟩ ::
        if c.toNat < 128 then [] else [Content.compensate])).length =
      (cs.map charWidth).sum := by
  intro cs
  induction cs with
  | nil => exact ⟨rfl, rfl⟩
  | cons c cs ih =>
    by_cases hc : c.toNat < 128
    · have hw : (⟨String.mk [c], color⟩ : ColoredString).width ≠ 2 := by
        rw [singleCharWidth]
        simp [charWidth, hc]
      constructor
      · rw [List.flatMap_cons, if_pos hc]
        simpa [contSeqOk_cons_w1 hw (flatMap_shape color cs)] using ih.1
      · rw [List.flatMap_cons, if_pos hc]
        simp [ih.2, charWidth, hc]
        omega
    · have hw : (⟨String.mk [c], color⟩ : ColoredString).width = 2 := by
        rw [singleCharWidth]
        simp [charWidth, hc]
      constructor
      · rw [List.flatMap_cons, if_neg hc]
        simpa [contSeqOk_cons_w2 hw] using ih.1
      · rw [List.flatMap_cons, if_neg hc]
        simp [ih.2, charWidth, hc]
        omega

/-- C9: the continuation invariant of `string_to_content_vec`.  In the
content sequence built from any string, a `Compensate` entry appears
always and only immediately after a width-2 glyph entry, exactly one per
extra column that glyph consumes (`contSeqOk`), and consequently the
sequence's length equals the string's total display width: 1 per
ASCII-range character, 2 per non-ASCII character. -/
theorem string_to_content_vec_invariant (s : String) (color : Color) :
    contSeqOk (string_to_content_vec s color) = true ∧
    (string_to_content_vec s color).length = stringWidth s :=
  contSeqOk_flatMap color s.data

end CyberChristmasCard
